import Mathlib

/-!
Verification development for the svg_to_png_live clipboard-to-PNG pipeline.

Strings from the Python source are modelled as `List Char`, byte strings as
`List Nat` (each element a byte value), and Python floats as exact rationals.
External collaborators (the resvg process, PIL decoding/trimming, SHA-256) are
modelled as explicit function parameters, so every theorem quantifies over the
collaborator's behaviour.
-/

namespace SvgToPng

/-! ## Basic Python-semantics helpers -/

/-- Python whitespace class (the ASCII members of `\s` / `str.strip`). -/
def pyIsSpace (c : Char) : Bool :=
  c == ' ' || c == '\t' || c == '\n' || c == '\r' || c == Char.ofNat 11 || c == Char.ofNat 12

/-- Python regex word character `\w` (ASCII portion). -/
def pyIsWordChar (c : Char) : Bool :=
  c.isAlphanum || c == '_'

/-- Python `str.strip()`. -/
def pyStrip (l : List Char) : List Char :=
  ((l.dropWhile pyIsSpace).reverse.dropWhile pyIsSpace).reverse

/-- Value of a decimal digit string (most significant first). -/
def natOfDigits (l : List Char) : Nat :=
  l.foldl (fun a c => a * 10 + (c.toNat - 48)) 0

/-- Python `round` on a rational: round half to even, as `float.__round__` does. -/
def pythonRound (q : ℚ) : ℤ :=
  let f : ℤ := Rat.floor q
  let r : ℚ := q - (f : ℚ)
  if r < 1 / 2 then f
  else if 1 / 2 < r then f + 1
  else if f % 2 = 0 then f else f + 1

/-- Case-insensitive "starts with" on character lists. -/
def ciStarts : List Char → List Char → Bool
  | [], _ => true
  | _ :: _, [] => false
  | p :: ps, c :: cs => (Char.toLower p == Char.toLower c) && ciStarts ps cs

/-- Least position (0-based) at which the predicate holds on the remaining
suffix; mirrors `re.search` scanning positions left to right. -/
def findFirstIdx (p : List Char → Bool) : List Char → Option Nat
  | [] => if p [] then some 0 else none
  | l@(_ :: t) => if p l then some 0 else (findFirstIdx p t).map (fun n => n + 1)

/-! ## PNG dimension extraction (`AppController._parse_png_dimensions`) -/

/-- The 8-byte PNG signature `\x89PNG\r\n\x1a\n`. -/
def pngSignature : List Nat := [137, 80, 78, 71, 13, 10, 26, 10]

/-- Big-endian value of a byte list (`int.from_bytes(_, "big")`). -/
def beBytes (l : List Nat) : Nat :=
  l.foldl (fun a b => a * 256 + b) 0

/-- Big-endian 4-byte encoding of a 32-bit value. -/
def be4 (n : Nat) : List Nat :=
  [n / 16777216 % 256, n / 65536 % 256, n / 256 % 256, n % 256]

/-- `AppController._parse_png_dimensions`: minimal IHDR parse, total, returns
`(0, 0)` on any malformed input. -/
def parse_png_dimensions (b : List Nat) : Nat × Nat :=
  if b.length < 24 then (0, 0)
  else if b.take 8 ≠ pngSignature then (0, 0)
  else if (b.drop 12).take 4 ≠ [73, 72, 68, 82] then (0, 0)
  else (beBytes ((b.drop 16).take 4), beBytes ((b.drop 20).take 4))

/-! ## LRU cache (`convert/cache.py`) -/

/-- In-memory model of `LruCache`: `data` is the `OrderedDict` contents, front =
least recently used, back = most recently used. -/
structure LruCache (K V : Type) where
  max_items : Nat
  data : List (K × V)
deriving DecidableEq

/-- Association lookup (dict membership + indexing). -/
def assocFind {K V : Type} [DecidableEq K] : List (K × V) → K → Option V
  | [], _ => none
  | (a, b) :: t, k => if a = k then some b else assocFind t k

/-- Remove the (unique) entry with the given key. -/
def removeKey {K V : Type} [DecidableEq K] : List (K × V) → K → List (K × V)
  | [], _ => []
  | (a, b) :: t, k => if a = k then t else (a, b) :: removeKey t k

/-- `OrderedDict.move_to_end`: relocate the entry with the given key to the back. -/
def moveToEnd {K V : Type} [DecidableEq K] (l : List (K × V)) (k : K) : List (K × V) :=
  match assocFind l k with
  | none => l
  | some v => removeKey l k ++ [(k, v)]

/-- Dict assignment `d[key] = value`: update in place when present, else append. -/
def assocSet {K V : Type} [DecidableEq K] : List (K × V) → K → V → List (K × V)
  | [], k, v => [(k, v)]
  | (a, b) :: t, k, v => if a = k then (k, v) :: t else (a, b) :: assocSet t k v

/-- The `while len > max: popitem(last=False)` loop: drop from the front while
over capacity. -/
def evictOverflow {K V : Type} (m : Nat) : List (K × V) → List (K × V)
  | [] => []
  | x :: xs => if m < (x :: xs).length then evictOverflow m xs else x :: xs

/-- `LruCache.get`: on a hit, move the entry to most-recently-used and return
its value; on a miss return `none` and leave the cache unchanged. -/
def lruGet {K V : Type} [DecidableEq K] (c : LruCache K V) (k : K) :
    Option V × LruCache K V :=
  match assocFind c.data k with
  | none => (none, c)
  | some v => (some v, ⟨c.max_items, removeKey c.data k ++ [(k, v)]⟩)

/-- `LruCache.put`: move-to-end when present, assign, then evict from the front
while over capacity. -/
def lruPut {K V : Type} [DecidableEq K] (c : LruCache K V) (k : K) (v : V) :
    LruCache K V :=
  let d0 := if (assocFind c.data k).isSome then moveToEnd c.data k else c.data
  let d1 := assocSet d0 k v
  ⟨c.max_items, evictOverflow c.max_items d1⟩

/-- A client-visible cache operation. -/
inductive LruOp (K V : Type) where
  | get (k : K)
  | put (k : K) (v : V)

/-- Run a sequence of cache operations. -/
def lruRun {K V : Type} [DecidableEq K] (c : LruCache K V) :
    List (LruOp K V) → LruCache K V
  | [] => c
  | LruOp.get k :: rest => lruRun (lruGet c k).2 rest
  | LruOp.put k v :: rest => lruRun (lruPut c k v) rest

/-! ## SVG detection (`convert/svg_detect.py`) -/

/-- Match of `_SVG_OPEN_RE = <svg\b` (case-insensitive) at the head of the
suffix: the literal `<svg` followed by a word boundary. -/
def openAt (l : List Char) : Bool :=
  ciStarts "<svg".data l &&
    match l.drop 4 with
    | [] => true
    | c :: _ => !pyIsWordChar c

/-- Match of `_SVG_CLOSE_RE = </svg\s*>` (case-insensitive) at the head of the
suffix; returns the match length. -/
def closeAt (l : List Char) : Option Nat :=
  if ciStarts "</svg".data l then
    let sp := (l.drop 5).takeWhile pyIsSpace
    match (l.drop 5).drop sp.length with
    | c :: _ => if c = '>' then some (5 + sp.length + 1) else none
    | [] => none
  else none

/-- Absolute end offsets of every `</svg\s*>` match, scanning each position.
Two matches can never overlap (no interior character of a match is `<`), so
this enumerates exactly the `finditer` matches, in order. -/
def closeEndsFrom : List Char → Nat → List Nat
  | [], _ => []
  | l@(_ :: t), i =>
    match closeAt l with
    | some m => (i + m) :: closeEndsFrom t (i + 1)
    | none => closeEndsFrom t (i + 1)

/-- End offset of the last `</svg\s*>` match (the `for m in finditer` loop). -/
def lastCloseEnd (l : List Char) : Option Nat :=
  (closeEndsFrom l 0).getLast?

/-- `looks_like_svg_text`: non-empty, contains `<svg\b` and `</svg\s*>`. -/
def looks_like_svg_text (l : List Char) : Bool :=
  !l.isEmpty && (findFirstIdx openAt l).isSome && (lastCloseEnd l).isSome

/-- `normalize_svg_markup`: substring from the first `<svg` through the end of
the last `</svg>` (inclusive), stripped; `none` when not plausible SVG. -/
def normalize_svg_markup (l : List Char) : Option (List Char) :=
  if ¬ looks_like_svg_text l then none
  else
    match findFirstIdx openAt l, lastCloseEnd l with
    | some s, some e =>
      let svg := pyStrip ((l.take e).drop s)
      if svg = [] then none else some svg
    | _, _ => none

/-! ## SVG size parsing (`convert/svg_size.py`) -/

/-- Match of `_SVG_TAG_RE = <svg\b[^>]*>` at the head of the suffix, returning
the matched tag text. -/
def svgTagAt (l : List Char) : Option (List Char) :=
  if openAt l then
    let body := (l.drop 4).takeWhile (fun c => c != '>')
    match (l.drop 4).drop body.length with
    | c :: _ => if c = '>' then some (l.take 4 ++ body ++ ['>']) else none
    | [] => none
  else none

/-- `_SVG_TAG_RE.search`: leftmost match of the root tag pattern. -/
def svgTagSearch : List Char → Option (List Char)
  | [] => none
  | l@(_ :: t) =>
    match svgTagAt l with
    | some tag => some tag
    | none => svgTagSearch t

/-- Double-quote or single-quote character. -/
def isQuote (c : Char) : Bool :=
  c == '"' || c == Char.ofNat 39

/-- Match of `{name}\s*=\s*["']([^"']+)["']` (the part after the `\b`) at the
head of the suffix; returns the quoted group. -/
def attrValueAt (name l : List Char) : Option (List Char) :=
  if ciStarts name l then
    let r1 := (l.drop name.length).dropWhile pyIsSpace
    match r1 with
    | '=' :: r2 =>
      let r3 := r2.dropWhile pyIsSpace
      match r3 with
      | q :: r4 =>
        if isQuote q then
          let v := r4.takeWhile (fun c => !isQuote c)
          match r4.drop v.length with
          | q2 :: _ => if isQuote q2 ∧ v ≠ [] then some v else none
          | [] => none
        else none
      | [] => none
    | _ => none
  else none

/-- Scan positions left to right tracking the word-boundary (`\b`) condition
via the previous character. -/
def attrSearchGo (name : List Char) : List Char → Bool → Option (List Char)
  | [], _ => none
  | l@(c :: t), prevW =>
    match if prevW then none else attrValueAt name l with
    | some v => some v
    | none => attrSearchGo name t (pyIsWordChar c)

/-- `_extract_attr`: case-insensitive attribute lookup inside the root tag,
with the group stripped. -/
def extractAttr (tag name : List Char) : Option (List Char) :=
  (attrSearchGo name tag false).map pyStrip

/-- Match of `_LENGTH_RE = ^\s*([0-9]+(?:\.[0-9]+)?)\s*([a-zA-Z%]*)\s*$`,
returning the numeric value and the raw unit group. -/
def matchLength (v : List Char) : Option (ℚ × List Char) :=
  let r0 := v.dropWhile pyIsSpace
  let ds := r0.takeWhile Char.isDigit
  if ds = [] then none
  else
    let r1 := r0.drop ds.length
    let fr : Option (List Char × List Char) :=
      match r1 with
      | '.' :: r2 =>
        let fs := r2.takeWhile Char.isDigit
        if fs = [] then none else some (fs, r2.drop fs.length)
      | _ => some ([], r1)
    match fr with
    | none => none
    | some (fs, r2) =>
      let r3 := r2.dropWhile pyIsSpace
      let us := r3.takeWhile (fun c => c.isAlpha || c == '%')
      let r4 := r3.drop us.length
      if r4.all pyIsSpace then
        some ((natOfDigits ds : ℚ) + (natOfDigits fs : ℚ) / (10 : ℚ) ^ fs.length, us)
      else none

/-- `_length_to_css_px`: unit table at 96 CSS px per inch; context-dependent
units do not resolve. -/
def lengthToCssPx (v : List Char) : Option ℚ :=
  match matchLength v with
  | none => none
  | some (num, us) =>
    let unit := (if us = [] then "px".data else us).map Char.toLower
    if unit = "px".data ∨ unit = [] then some num
    else if unit = "in".data then some (num * 96)
    else if unit = "pt".data then some (num * (96 / 72))
    else if unit = "pc".data then some (num * 16)
    else if unit = "mm".data then some (num * (96 / (254 / 10)))
    else if unit = "cm".data then some (num * (96 / (127 / 50)))
    else none

/-- Separator class `[,\s]` used by `_parse_viewbox`'s `re.split`. -/
def isSepChar (c : Char) : Bool :=
  c == ',' || pyIsSpace c

/-- Drop empty fields except the final one (helper for run-collapsing split). -/
def dropMidEmpties : List (List Char) → List (List Char)
  | [] => []
  | [x] => [x]
  | x :: xs => if x = [] then dropMidEmpties xs else x :: dropMidEmpties xs

/-- `re.split(r"[,\s]+", s)`: splitting on a `+`-quantified class equals
splitting at every separator and dropping the interior empty fields. -/
def pySplitRuns (l : List Char) : List (List Char) :=
  match l.splitOnP isSepChar with
  | [] => [[]]
  | [x] => [x]
  | x :: xs => x :: dropMidEmpties xs

/-- Unsigned part of a Python `float()` literal: digits with optional
fractional part. Returns the value and the unconsumed remainder. -/
def parseUnsignedFloat (l : List Char) : Option (ℚ × List Char) :=
  let ds := l.takeWhile Char.isDigit
  let r1 := l.drop ds.length
  match r1 with
  | '.' :: r2 =>
    let fs := r2.takeWhile Char.isDigit
    if ds = [] ∧ fs = [] then none
    else some ((natOfDigits ds : ℚ) + (natOfDigits fs : ℚ) / (10 : ℚ) ^ fs.length,
               r2.drop fs.length)
  | _ => if ds = [] then none else some ((natOfDigits ds : ℚ), r1)

/-- Exponent digits of a `float()` literal. -/
def parseExpDigits (q : ℚ) (l : List Char) (sgn : ℤ) : Option ℚ :=
  let ds := l.takeWhile Char.isDigit
  if ds = [] then none
  else if l.drop ds.length ≠ [] then none
  else some (q * (10 : ℚ) ^ (sgn * (natOfDigits ds : ℤ)))

/-- Optional exponent suffix of a `float()` literal. -/
def parseExpPart (q : ℚ) : List Char → Option ℚ
  | [] => some q
  | c :: t =>
    if c = 'e' ∨ c = 'E' then
      match t with
      | '+' :: t2 => parseExpDigits q t2 1
      | '-' :: t2 => parseExpDigits q t2 (-1)
      | _ => parseExpDigits q t 1
    else none

/-- Python `float()` on a decimal literal (sign, digits, fraction, exponent);
anything else raises `ValueError`, modelled as `none`. -/
def pyFloat? (l : List Char) : Option ℚ :=
  let s := pyStrip l
  let sgned : ℚ × List Char :=
    match s with
    | '+' :: t => (1, t)
    | '-' :: t => (-1, t)
    | _ => (1, s)
  match parseUnsignedFloat sgned.2 with
  | none => none
  | some (q, rest) => (parseExpPart q rest).map (fun x => sgned.1 * x)

/-- `_parse_viewbox`: exactly four fields, 3rd/4th positive floats. -/
def parseViewbox (v : List Char) : Option (ℚ × ℚ) :=
  match pySplitRuns (pyStrip v) with
  | [_, _, p2, p3] =>
    match pyFloat? p2, pyFloat? p3 with
    | some w, some h => if w ≤ 0 ∨ h ≤ 0 then none else some (w, h)
    | _, _ => none
  | _ => none

/-- Logical CSS size of an SVG document. -/
structure SvgCssSize where
  width_px : ℚ
  height_px : ℚ
deriving DecidableEq

/-- viewBox fallback of `parse_svg_css_size` (the `if viewbox_raw` block). -/
def viewboxFallback (viewboxRaw : Option (List Char)) : SvgCssSize :=
  match viewboxRaw with
  | some vb =>
    if vb = [] then ⟨300, 150⟩
    else
      match parseViewbox vb with
      | some (w, h) => ⟨w, h⟩
      | none => ⟨300, 150⟩
  | none => ⟨300, 150⟩

/-- `parse_svg_css_size`: width/height attributes when both resolve positive,
else the viewBox, else the fixed default 300x150. -/
def parse_svg_css_size (l : List Char) : SvgCssSize :=
  match svgTagSearch l with
  | none => ⟨300, 150⟩
  | some tag =>
    let widthRaw := extractAttr tag "width".data
    let heightRaw := extractAttr tag "height".data
    let viewboxRaw := extractAttr tag "viewBox".data
    let w : Option ℚ :=
      match widthRaw with
      | some v => if v = [] then none else lengthToCssPx v
      | none => none
    let h : Option ℚ :=
      match heightRaw with
      | some v => if v = [] then none else lengthToCssPx v
      | none => none
    match w, h with
    | some wv, some hv =>
      if 0 < wv ∧ 0 < hv then ⟨wv, hv⟩ else viewboxFallback viewboxRaw
    | _, _ => viewboxFallback viewboxRaw

/-- `compute_output_px`: scale the logical size by `dpi/96`, round, floor at 1,
then clamp the larger dimension to `max_dim_px` when positive. -/
def compute_output_px (l : List Char) (dpi : ℤ) (max_dim_px : ℤ) : Nat × Nat :=
  let css := parse_svg_css_size l
  let scale : ℚ := (dpi : ℚ) / 96
  let w0 : ℤ := max 1 (pythonRound (css.width_px * scale))
  let h0 : ℤ := max 1 (pythonRound (css.height_px * scale))
  if 0 < max_dim_px ∧ max_dim_px < max w0 h0 then
    let r : ℚ := (max_dim_px : ℚ) / ((max w0 h0 : ℤ) : ℚ)
    ((max 1 (pythonRound ((w0 : ℚ) * r))).toNat, (max 1 (pythonRound ((h0 : ℚ) * r))).toNat)
  else (w0.toNat, h0.toNat)

/-! ## Conversion pipeline (`convert/renderer.py`) -/

/-- Configuration snapshot fields consumed by `SvgToPngConverter.convert`. -/
structure AppCfg where
  dpi : ℤ
  background_hex : List Char
  conversion_timeout_s : ℚ
  max_output_dim_px : ℤ
  max_output_png_bytes : ℤ
  trim_border : Bool
  trim_tolerance : ℤ
deriving DecidableEq

/-- The injected background rectangle markup. -/
def backgroundRect (bg : List Char) : List Char :=
  "\n  <rect x=\"0%\" y=\"0%\" width=\"100%\" height=\"100%\" fill=\"".data ++ bg ++
    "\" />\n".data

/-- First index at or after `from` holding the character `c`
(`str.find(c, from)`). -/
def findCharFrom (c : Char) (l : List Char) (start : Nat) : Option Nat :=
  (findFirstIdx (fun t => match t with | [] => false | x :: _ => x == c) (l.drop start)).map
    (fun n => n + start)

/-- First index of the literal substring `pat` (`str.find(pat)`). -/
def findSubIdx (pat l : List Char) : Option Nat :=
  findFirstIdx (fun t => pat.isPrefixOf t) l

/-- `inject_solid_background`: insert the background rect right after the end
of the opening `<svg ...>` tag (plain lowercase substring search). -/
def inject_solid_background (svg bg : List Char) : List Char :=
  if svg = [] then svg
  else
    match findSubIdx "<svg".data (svg.map Char.toLower) with
    | none => svg
    | some start =>
      match findCharFrom '>' svg start with
      | none => svg
      | some e => svg.take (e + 1) ++ backgroundRect bg ++ svg.drop (e + 1)

/-- `ConversionResult` as produced by the converter (dims always present). -/
structure ConvResult where
  svg_hash : List Char
  png_bytes : List Nat
  render_ms : ℚ
  width_px : Nat
  height_px : Nat
deriving DecidableEq

/-- Outcome of the size-fit loop: final bytes, final tracked dimensions, and
the list of `(w, h)` pairs the renderer was actually invoked at. -/
structure FitOut where
  png : List Nat
  w : Nat
  h : Nat
  attempts : List (Nat × Nat)
deriving DecidableEq

/-- `scale = max(0.10, min(0.95, sqrt(budget / current_bytes) * 0.90))`. -/
def fitScale (sqrtA : ℚ → ℚ) (budget : ℤ) (len : Nat) : ℚ :=
  max (1 / 10) (min (19 / 20) (sqrtA ((budget : ℚ) / (len : ℚ)) * (9 / 10)))

/-- `max(1, int(round(dim * scale)))`. -/
def nextDim (d : Nat) (scale : ℚ) : Nat :=
  (max 1 (pythonRound ((d : ℚ) * scale))).toNat

/-- The bounded render/downscale loop of `SvgToPngConverter.convert`
(`for _ in range(max_attempts)` with `max_attempts = 6`), parameterised over
the renderer invocation `att`, the optional-trim step `trStep`, and the float
square root `sqrtA`. -/
def fitGo (att : Nat → Nat → List Nat) (trStep : List Nat → Nat → Nat → List Nat × Nat × Nat)
    (budget : ℤ) (sqrtA : ℚ → ℚ) : Nat → Nat → Nat → FitOut
  | 0, w, h => ⟨[], w, h, []⟩
  | fuel + 1, w, h =>
    let t := trStep (att w h) w h
    if budget ≤ 0 ∨ (t.1.length : ℤ) ≤ budget then ⟨t.1, t.2.1, t.2.2, [(w, h)]⟩
    else
      let scale : ℚ := fitScale sqrtA budget t.1.length
      let nw : Nat := nextDim t.2.1 scale
      let nh : Nat := nextDim t.2.2 scale
      if nw = t.2.1 ∧ nh = t.2.2 then ⟨t.1, t.2.1, t.2.2, [(w, h)]⟩
      else
        match fuel with
        | 0 => ⟨t.1, t.2.1, t.2.2, [(w, h)]⟩
        | fuel' + 1 =>
          let r := fitGo att trStep budget sqrtA (fuel' + 1) nw nh
          ⟨r.png, r.w, r.h, (w, h) :: r.attempts⟩

/-- The settings-hash input string
`f"dpi=..;bg=..;w=..;h=..;max_png=.."`. -/
def settingsKeyOf (cfg : AppCfg) (w h : Nat) : List Char :=
  "dpi=".data ++ (toString cfg.dpi).data ++ ";bg=".data ++ cfg.background_hex ++
    ";w=".data ++ (toString w).data ++ ";h=".data ++ (toString h).data ++
    ";max_png=".data ++ (toString cfg.max_output_png_bytes).data

/-- The composite cache key `f"{svg_hash}:{sha256(settings_key)}"`, with the
digest modelled by the abstract `hashFn`. -/
def cacheKeyOf (hashFn : List Char → List Char) (cfg : AppCfg) (svg : List Char)
    (w h : Nat) : List Char :=
  hashFn svg ++ ":".data ++ hashFn (settingsKeyOf cfg w h)

/-- Cache type used by the converter. -/
abbrev ConvCache := LruCache (List Char) (List Nat × Nat × Nat)

/-- `SvgToPngConverter.convert`. Parameters model the external collaborators:
`hashFn` is the SHA-256 hexdigest, `render` the resvg invocation (svg text,
width, height, dpi, timeout), `trimF` the PIL `trim_png_border`, `sqrtA` the
float square root, `dt` the measured wall-clock duration of a miss. Returns
the result (or the size-limit error `⟨achieved bytes, budget⟩`), the updated
cache, and the list of sizes the renderer was invoked at. -/
def convert (hashFn : List Char → List Char)
    (render : List Char → Nat → Nat → ℤ → ℚ → List Nat)
    (trimF : List Nat → List Char → ℤ → List Nat × Nat × Nat)
    (sqrtA : ℚ → ℚ) (dt : ℚ) (cfg : AppCfg) (cache : Option ConvCache)
    (svg : List Char) :
    Except (Nat × ℤ) ConvResult × Option ConvCache × List (Nat × Nat) :=
  let svg_hash := hashFn svg
  let svg_for_render := inject_solid_background svg cfg.background_hex
  let wh := compute_output_px svg cfg.dpi cfg.max_output_dim_px
  let key := cacheKeyOf hashFn cfg svg wh.1 wh.2
  let got : Option (List Nat × Nat × Nat) × Option ConvCache :=
    match cache with
    | some c => ((lruGet c key).1, some (lruGet c key).2)
    | none => (none, none)
  match got.1 with
  | some hit => (.ok ⟨svg_hash, hit.1, 0, hit.2.1, hit.2.2⟩, got.2, [])
  | none =>
    let att := fun w h => render svg_for_render w h cfg.dpi cfg.conversion_timeout_s
    let trStep := fun (c : List Nat) (w h : Nat) =>
      if cfg.trim_border then trimF c cfg.background_hex cfg.trim_tolerance else (c, w, h)
    let r := fitGo att trStep cfg.max_output_png_bytes sqrtA 6 wh.1 wh.2
    if 0 < cfg.max_output_png_bytes ∧ cfg.max_output_png_bytes < (r.png.length : ℤ) then
      (.error (r.png.length, cfg.max_output_png_bytes), got.2, r.attempts)
    else
      (.ok ⟨svg_hash, r.png, dt, r.w, r.h⟩,
       (got.2).map (fun c => lruPut c key (r.png, r.w, r.h)), r.attempts)

/-! ## Windows DIBv5 clipboard payload (`clipboard/win_clipboard.py`) -/

/-- `_dpi_to_pels_per_meter`: `int(round(dpi / 0.0254))`. -/
def dpi_to_pels_per_meter (dpi : ℤ) : ℤ :=
  pythonRound ((dpi : ℚ) / (254 / 10000))

/-- The `BITMAPV5HEADER` fields set by `set_windows_clipboard_png` (the ctypes
structure zero-initialises every other field). -/
structure BitmapV5Header where
  size : Nat
  width : ℤ
  height : ℤ
  planes : Nat
  bitCount : Nat
  compression : Nat
  sizeImage : Nat
  xPelsPerMeter : ℤ
  yPelsPerMeter : ℤ
  clrUsed : Nat
  clrImportant : Nat
  redMask : Nat
  greenMask : Nat
  blueMask : Nat
  alphaMask : Nat
  csType : Nat
  gammaRed : Nat
  gammaGreen : Nat
  gammaBlue : Nat
  intent : Nat
  profileData : Nat
  profileSize : Nat
  reserved : Nat
deriving DecidableEq

/-- The header populated by the code path of lines 173-189. -/
def mkDibv5Header (w h : Nat) (dpi : ℤ) (pixLen : Nat) : BitmapV5Header where
  size := 124
  width := (w : ℤ)
  height := -(h : ℤ)
  planes := 1
  bitCount := 32
  compression := 3
  sizeImage := pixLen
  xPelsPerMeter := dpi_to_pels_per_meter dpi
  yPelsPerMeter := dpi_to_pels_per_meter dpi
  clrUsed := 0
  clrImportant := 0
  redMask := 0x00FF0000
  greenMask := 0x0000FF00
  blueMask := 0x000000FF
  alphaMask := 0xFF000000
  csType := 0x73524742
  gammaRed := 0
  gammaGreen := 0
  gammaBlue := 0
  intent := 4
  profileData := 0
  profileSize := 0
  reserved := 0

/-- Little-endian 16-bit serialization. -/
def le16 (n : Nat) : List Nat :=
  [n % 256, n / 256 % 256]

/-- Little-endian 32-bit serialization. -/
def le32 (n : Nat) : List Nat :=
  [n % 256, n / 256 % 256, n / 65536 % 256, n / 16777216 % 256]

/-- Little-endian 32-bit two's-complement serialization of a signed value. -/
def le32i (i : ℤ) : List Nat :=
  le32 ((i % 4294967296).toNat)

/-- Byte layout of `BITMAPV5HEADER` (ctypes natural alignment on Windows, all
fields 4-byte aligned, the 36-byte `bV5Endpoints` block zeroed). -/
def serializeDibv5Header (hd : BitmapV5Header) : List Nat :=
  le32 hd.size ++ le32i hd.width ++ le32i hd.height ++ le16 hd.planes ++
    le16 hd.bitCount ++ le32 hd.compression ++ le32 hd.sizeImage ++
    le32i hd.xPelsPerMeter ++ le32i hd.yPelsPerMeter ++ le32 hd.clrUsed ++
    le32 hd.clrImportant ++ le32 hd.redMask ++ le32 hd.greenMask ++
    le32 hd.blueMask ++ le32 hd.alphaMask ++ le32 hd.csType ++
    List.replicate 36 0 ++ le32 hd.gammaRed ++ le32 hd.gammaGreen ++
    le32 hd.gammaBlue ++ le32 hd.intent ++ le32 hd.profileData ++
    le32 hd.profileSize ++ le32 hd.reserved

/-- The DIBv5 construction of `set_windows_clipboard_png` lines 160-191:
`decodedPx` models the PIL BGRA decode (`none` = decode failure, yielding
empty pixel bytes). Returns the `CF_DIBV5` payload when one is written. -/
def buildDibv5Payload (decodedPx : Option (List Nat)) (w h : Nat) (dpi : ℤ)
    (alsoSetDibv5 : Bool) (maxDibv5Bytes : ℤ) : Option (List Nat) :=
  if ¬ alsoSetDibv5 then none
  else if ((w * h * 4 : Nat) : ℤ) ≤ maxDibv5Bytes then
    let px := decodedPx.getD []
    if px ≠ [] ∧ (px.length : ℤ) ≤ maxDibv5Bytes then
      some (serializeDibv5Header (mkDibv5Header w h dpi px.length) ++ px)
    else none
  else none

/-! ## Clipboard watcher (`clipboard/watcher.py`) -/

/-- The clipboard payload visible through `QMimeData`. -/
structure MimeData where
  hasImage : Bool
  hasText : Bool
  text : List Char
deriving DecidableEq

/-- The mutable state of `ClipboardWatcher`. `debounceArmed` models whether the
single-shot debounce timer is pending. -/
structure WatcherState where
  running : Bool
  pendingSvg : Option (List Char)
  lastProcessedHash : Option (List Char)
  ignoreUntil : ℚ
  inFlight : Bool
  rerunAfterFlight : Bool
  debounceArmed : Bool
  hasConverter : Bool
deriving DecidableEq

/-- Watcher-relevant configuration fields. -/
structure WatchCfg where
  debounce_ms : ℤ
  max_svg_chars : ℤ
deriving DecidableEq

/-- `ClipboardWatcher.start`. -/
def watcherStart (st : WatcherState) : WatcherState :=
  if st.running then st else { st with running := true }

/-- `ClipboardWatcher.stop`. -/
def watcherStop (st : WatcherState) : WatcherState :=
  if ¬ st.running then st
  else { st with running := false, pendingSvg := none, debounceArmed := false,
                 inFlight := false }

/-- `ClipboardWatcher._on_clipboard_changed` at monotonic time `now`. -/
def onClipboardChanged (cfg : WatchCfg) (now : ℚ) (mime : Option MimeData)
    (st : WatcherState) : WatcherState :=
  if ¬ st.running then st
  else if now < st.ignoreUntil then st
  else
    match mime with
    | none => st
    | some m =>
      if m.hasImage then st
      else if ¬ m.hasText then st
      else if m.text = [] then st
      else if cfg.max_svg_chars < (m.text.length : ℤ) then st
      else
        match normalize_svg_markup m.text with
        | none => st
        | some svg => { st with pendingSvg := some svg, debounceArmed := true }

/-- `ClipboardWatcher._on_debounce_timeout`: returns the new state and the SVG
text dispatched to the worker pool, if any. -/
def onDebounceTimeout (hashFn : List Char → List Char) (mime : Option MimeData)
    (st0 : WatcherState) : WatcherState × Option (List Char) :=
  let st := { st0 with debounceArmed := false }
  if ¬ st.running then (st, none)
  else
    match st.pendingSvg with
    | none => (st, none)
    | some pending =>
      if st.inFlight then ({ st with rerunAfterFlight := true }, none)
      else
        match mime with
        | none => (st, none)
        | some m =>
          if ¬ m.hasText then (st, none)
          else
            match normalize_svg_markup m.text with
            | none => (st, none)
            | some current =>
              if current ≠ pending then (st, none)
              else if some (hashFn current) = st.lastProcessedHash then (st, none)
              else if ¬ st.hasConverter then (st, none)
              else ({ st with inFlight := true }, some current)

/-- `ClipboardWatcher._maybe_rerun_latest`. -/
def maybeRerunLatest (st : WatcherState) : WatcherState :=
  if ¬ st.running then { st with rerunAfterFlight := false }
  else if ¬ st.rerunAfterFlight then st
  else { st with rerunAfterFlight := false, debounceArmed := true }

/-- `ClipboardWatcher._on_worker_finished`. -/
def onWorkerFinished (resHash : List Char) (st : WatcherState) : WatcherState :=
  maybeRerunLatest { st with inFlight := false, lastProcessedHash := some resHash }

/-- `ClipboardWatcher._on_worker_failed`. -/
def onWorkerFailed (st : WatcherState) : WatcherState :=
  maybeRerunLatest { st with inFlight := false }

/-- Default `AppConfig.max_svg_chars` (`config.py`). -/
def max_svg_chars_default : Nat := 200000000

/-! ## Theorems -/

section EvalTheorems

attribute [local semireducible] Rat.add Rat.mul Rat.sub Rat.inv Rat.ofScientific

/-- C9: the PNG dimension extraction is total and returns `(0, 0)` for inputs
shorter than 24 bytes, with a wrong 8-byte signature, or whose first chunk is
not `IHDR`; otherwise it returns the big-endian 32-bit words at byte offsets
16 and 20 — in particular it recovers the dimensions of any well-formed
signature-plus-IHDR prefix. -/
theorem c9_png_dimension_extraction (b : List Nat) :
    ((b.length < 24 ∨ b.take 8 ≠ pngSignature ∨ (b.drop 12).take 4 ≠ [73, 72, 68, 82]) →
      parse_png_dimensions b = (0, 0)) ∧
    (24 ≤ b.length → b.take 8 = pngSignature → (b.drop 12).take 4 = [73, 72, 68, 82] →
      parse_png_dimensions b =
        (beBytes ((b.drop 16).take 4), beBytes ((b.drop 20).take 4))) ∧
    (∀ w h rest, w < 4294967296 → h < 4294967296 →
      parse_png_dimensions
          (pngSignature ++ [0, 0, 0, 13] ++ [73, 72, 68, 82] ++ be4 w ++ be4 h ++ rest) =
        (w, h)) := by
  refine ⟨?_, ?_, ?_⟩
  · intro h
    unfold parse_png_dimensions
    rcases h with h | h | h
    · rw [if_pos h]
    · by_cases h1 : b.length < 24
      · rw [if_pos h1]
      · rw [if_neg h1, if_pos h]
    · by_cases h1 : b.length < 24
      · rw [if_pos h1]
      · rw [if_neg h1]
        by_cases h2 : b.take 8 ≠ pngSignature
        · rw [if_pos h2]
        · rw [if_neg h2, if_pos h]
  · intro h1 h2 h3
    unfold parse_png_dimensions
    rw [if_neg (by omega), if_neg (by simp [h2]), if_neg (by simp [h3])]
  · intro w h rest hw hh
    simp only [pngSignature, be4, List.cons_append, List.nil_append]
    unfold parse_png_dimensions
    simp only [List.length_cons, List.take, List.drop, beBytes, List.foldl]
    norm_num
    rw [if_neg (by omega), if_pos (show [137, 80, 78, 71, 13, 10, 26, 10] = pngSignature from rfl)]
    simp only [Prod.mk.injEq]
    constructor <;> omega

/-- C9 witness: the branch hypotheses discharged at concrete byte strings. -/
theorem c9_png_dimension_extraction_witness :
    parse_png_dimensions [1, 2, 3] = (0, 0) ∧
    parse_png_dimensions
        (pngSignature ++ [0, 0, 0, 13] ++ [73, 72, 68, 82] ++ be4 20 ++ be4 300 ++ [0]) =
      (20, 300) :=
  ⟨(c9_png_dimension_extraction [1, 2, 3]).1 (Or.inl (by decide)),
   (c9_png_dimension_extraction []).2.2 20 300 [0] (by decide) (by decide)⟩

section LruLemmas

variable {K V : Type} [DecidableEq K]

theorem assocFind_of_not_mem {l : List (K × V)} {k : K} (h : k ∉ l.map Prod.fst) :
    assocFind l k = none := by
  induction l with
  | nil => rfl
  | cons x t ih =>
    obtain ⟨a, b⟩ := x
    simp only [List.map_cons, List.mem_cons] at h
    push_neg at h
    have hk : a ≠ k := fun hh => h.1 hh.symm
    simp [assocFind, hk, ih h.2]

theorem assocFind_append (l₁ l₂ : List (K × V)) (k : K) :
    assocFind (l₁ ++ l₂) k =
      match assocFind l₁ k with
      | some v => some v
      | none => assocFind l₂ k := by
  induction l₁ with
  | nil => rfl
  | cons x t ih =>
    obtain ⟨a, b⟩ := x
    by_cases hk : a = k
    · simp [assocFind, hk]
    · simpa [assocFind, hk] using ih

theorem removeKey_length {l : List (K × V)} {k : K} {v : V}
    (h : assocFind l k = some v) : (removeKey l k).length + 1 = l.length := by
  induction l with
  | nil => simp [assocFind] at h
  | cons x t ih =>
    obtain ⟨a, b⟩ := x
    by_cases hk : a = k
    · simp [removeKey, hk]
    · simp only [assocFind, if_neg hk] at h
      simp [removeKey, hk, ih h]

theorem assocFind_removeKey_self {l : List (K × V)} {k : K}
    (h : (l.map Prod.fst).Nodup) : assocFind (removeKey l k) k = none := by
  induction l with
  | nil => rfl
  | cons x t ih =>
    obtain ⟨a, b⟩ := x
    simp only [List.map_cons, List.nodup_cons] at h
    by_cases hk : a = k
    · subst hk
      simp only [removeKey, if_pos rfl]
      exact assocFind_of_not_mem h.1
    · simp only [removeKey, if_neg hk, assocFind, if_neg hk]
      exact ih h.2

theorem assocFind_removeKey_ne {l : List (K × V)} {k k' : K} (h : k' ≠ k) :
    assocFind (removeKey l k) k' = assocFind l k' := by
  induction l with
  | nil => rfl
  | cons x t ih =>
    obtain ⟨a, b⟩ := x
    by_cases hk : a = k
    · simp [removeKey, hk, assocFind, Ne.symm h]
    · by_cases hk' : a = k'
      · simp [removeKey, hk, assocFind, hk', h]
      · simp [removeKey, hk, assocFind, hk', ih]

theorem assocFind_tail_none {l : List (K × V)} {k : K} (h : assocFind l k = none) :
    assocFind l.tail k = none := by
  cases l with
  | nil => rfl
  | cons x t =>
    obtain ⟨a, b⟩ := x
    by_cases hk : a = k
    · simp [assocFind, hk] at h
    · simpa [assocFind, hk] using h

theorem assocSet_of_none {l : List (K × V)} {k : K} (v : V)
    (h : assocFind l k = none) : assocSet l k v = l ++ [(k, v)] := by
  induction l with
  | nil => rfl
  | cons x t ih =>
    obtain ⟨a, b⟩ := x
    by_cases hk : a = k
    · simp [assocFind, hk] at h
    · simp only [assocFind, if_neg hk] at h
      simp [assocSet, hk, ih h]

omit [DecidableEq K] in
theorem evictOverflow_cons (m : Nat) (x : K × V) (t : List (K × V)) :
    evictOverflow m (x :: t) =
      if m < (x :: t).length then evictOverflow m t else x :: t := rfl

omit [DecidableEq K] in
theorem evictOverflow_length (m : Nat) (l : List (K × V)) :
    (evictOverflow m l).length ≤ m := by
  induction l with
  | nil => simp [evictOverflow]
  | cons x t ih =>
    rw [evictOverflow_cons]
    by_cases hlen : m < (x :: t).length
    · rw [if_pos hlen]; exact ih
    · rw [if_neg hlen]; simp at hlen ⊢; omega

omit [DecidableEq K] in
theorem evictOverflow_of_le {m : Nat} {l : List (K × V)} (h : l.length ≤ m) :
    evictOverflow m l = l := by
  cases l with
  | nil => rfl
  | cons x t => rw [evictOverflow_cons, if_neg (by omega)]

omit [DecidableEq K] in
theorem evictOverflow_succ {m : Nat} {l : List (K × V)} (h : l.length = m + 1) :
    evictOverflow m l = l.tail := by
  cases l with
  | nil => simp at h
  | cons x t =>
    rw [evictOverflow_cons, if_pos (by omega : m < (x :: t).length), List.tail_cons]
    exact evictOverflow_of_le (by simp at h; omega)

theorem lruGet_max_items (c : LruCache K V) (k : K) :
    ((lruGet c k).2).max_items = c.max_items := by
  cases h : assocFind c.data k <;> simp [lruGet, h]

theorem lruGet_length (c : LruCache K V) (k : K) :
    ((lruGet c k).2).data.length = c.data.length := by
  cases h : assocFind c.data k with
  | none => simp [lruGet, h]
  | some v =>
    have := removeKey_length h
    simp [lruGet, h]
    omega

theorem lruPut_max_items (c : LruCache K V) (k : K) (v : V) :
    (lruPut c k v).max_items = c.max_items := rfl

theorem lruPut_length_le (c : LruCache K V) (k : K) (v : V) :
    (lruPut c k v).data.length ≤ c.max_items :=
  evictOverflow_length _ _

theorem lruRun_max_items (c : LruCache K V) (ops : List (LruOp K V)) :
    (lruRun c ops).max_items = c.max_items := by
  induction ops generalizing c with
  | nil => rfl
  | cons op rest ih =>
    cases op with
    | get k => rw [lruRun, ih, lruGet_max_items]
    | put k v => rw [lruRun, ih, lruPut_max_items]

end LruLemmas

/-- C6 (amended): over every sequence of `get`/`put` operations the entry count
never exceeds the capacity; an insert of a fresh key at capacity evicts exactly
the front (least-recently-accessed) entry; a hit promotes the entry to the
back (most-recently-used) and — provided at least two entries are present —
thereby protects it from the next insert's eviction; a miss returns `none` and
leaves the cache unchanged. -/
theorem c6_lru_cache_behaviour :
    (∀ (ops : List (LruOp Nat Nat)) (c : LruCache Nat Nat), 1 ≤ c.max_items →
      c.data.length ≤ c.max_items → (lruRun c ops).data.length ≤ c.max_items) ∧
    (∀ (c : LruCache Nat Nat) (k v : Nat), 1 ≤ c.max_items →
      c.data.length = c.max_items → assocFind c.data k = none →
      (lruPut c k v).data = c.data.tail ++ [(k, v)]) ∧
    (∀ (c : LruCache Nat Nat) (k v : Nat), assocFind c.data k = some v →
      lruGet c k = (some v, ⟨c.max_items, removeKey c.data k ++ [(k, v)]⟩)) ∧
    (∀ (c : LruCache Nat Nat) (k : Nat), assocFind c.data k = none →
      lruGet c k = (none, c)) ∧
    (∀ (c : LruCache Nat Nat) (k v k' v' : Nat), (c.data.map Prod.fst).Nodup →
      c.data.length ≤ c.max_items → 2 ≤ c.data.length →
      assocFind c.data k = some v → assocFind c.data k' = none → k' ≠ k →
      assocFind (lruPut (lruGet c k).2 k' v').data k = some v) := by
  refine ⟨?_, ?_, ?_, ?_, ?_⟩
  · intro ops
    induction ops with
    | nil => intro c _ h; exact h
    | cons op rest ih =>
      intro c h1 h2
      cases op with
      | get k =>
        have hmax := lruGet_max_items c k
        have hrun := ih (lruGet c k).2 (by rw [hmax]; exact h1)
          (by rw [hmax, lruGet_length]; exact h2)
        show (lruRun (lruGet c k).2 rest).data.length ≤ c.max_items
        exact hmax ▸ hrun
      | put k v =>
        have hmax := lruPut_max_items c k v
        have hrun := ih (lruPut c k v) (by rw [hmax]; exact h1)
          (by rw [hmax]; exact lruPut_length_le c k v)
        show (lruRun (lruPut c k v) rest).data.length ≤ c.max_items
        exact hmax ▸ hrun
  · intro c k v h1 h2 h3
    unfold lruPut
    simp only [h3, Option.isSome_none, Bool.false_eq_true, if_false,
      assocSet_of_none v h3]
    have hlen : (c.data ++ [(k, v)]).length = c.max_items + 1 := by simp [h2]
    rw [evictOverflow_succ hlen]
    cases hd : c.data with
    | nil => rw [hd] at h2; simp at h2; omega
    | cons x t => simp
  · intro c k v h
    unfold lruGet
    rw [h]
  · intro c k h
    unfold lruGet
    rw [h]
  · intro c k v k' v' hnd hle h2 hfind hmiss hne
    unfold lruGet
    rw [hfind]
    set d1 : List (Nat × Nat) := removeKey c.data k ++ [(k, v)] with hd1
    have hd1find : assocFind d1 k' = none := by
      rw [hd1, assocFind_append]
      rw [assocFind_removeKey_ne hne, hmiss]
      simp [assocFind, Ne.symm hne]
    have hd1len : d1.length = c.data.length := by
      have := removeKey_length hfind
      simp [hd1]
      omega
    unfold lruPut
    simp only [hd1find, Option.isSome_none, Bool.false_eq_true, if_false,
      assocSet_of_none v' hd1find]
    have hself : assocFind (removeKey c.data k) k = none := assocFind_removeKey_self hnd
    have hrk_pos : 1 ≤ (removeKey c.data k).length := by
      have := removeKey_length hfind
      omega
    by_cases hcap : (d1 ++ [(k', v')]).length ≤ c.max_items
    · rw [evictOverflow_of_le hcap]
      rw [hd1]
      rw [List.append_assoc, assocFind_append, hself]
      simp [assocFind, Ne.symm hne]
    · have hlen1 : (d1 ++ [(k', v')]).length = c.max_items + 1 := by
        simp at hcap ⊢
        simp [hd1len] at hcap ⊢
        omega
      rw [evictOverflow_succ hlen1]
      cases hr : removeKey c.data k with
      | nil => rw [hr] at hrk_pos; simp at hrk_pos
      | cons y ys =>
        rw [hd1, hr]
        simp only [List.cons_append, List.tail_cons]
        rw [List.append_assoc, assocFind_append]
        have : assocFind ys k = none := by
          have := assocFind_tail_none (l := y :: ys) (k := k) (by rw [← hr]; exact hself)
          simpa using this
        rw [this]
        simp [assocFind, Ne.symm hne]

/-- C6 counterexample: with capacity 1 a `get` on the sole entry does *not*
prevent its eviction by the next insert of a distinct key, contradicting the
claim's universally stated "a get on an existing key prevents its eviction on
the next insert". -/
theorem c6_lru_cache_counterexample :
    (lruGet (⟨1, [(0, 10)]⟩ : LruCache Nat Nat) 0).1 = some 10 ∧
    assocFind (lruPut (lruGet (⟨1, [(0, 10)]⟩ : LruCache Nat Nat) 0).2 1 20).data 0 =
      none := by
  decide

/-- C6 witness: the amended theorem instantiated at a concrete two-entry
cache at capacity. -/
theorem c6_lru_cache_behaviour_witness :
    (lruPut (⟨2, [(0, 1), (1, 2)]⟩ : LruCache Nat Nat) 5 9).data = [(1, 2), (5, 9)] ∧
    assocFind (lruPut (lruGet (⟨2, [(0, 1), (1, 2)]⟩ : LruCache Nat Nat) 0).2 5 9).data 0 =
      some 1 := by
  constructor
  · have h := c6_lru_cache_behaviour.2.1 ⟨2, [(0, 1), (1, 2)]⟩ 5 9
      (by decide) (by decide) (by decide)
    simpa using h
  · exact c6_lru_cache_behaviour.2.2.2.2 ⟨2, [(0, 1), (1, 2)]⟩ 0 1 5 9
      (by decide) (by decide) (by decide) (by decide) (by decide) (by decide)

theorem findFirstIdx_spec (p : List Char → Bool) (l : List Char) (i : Nat)
    (h : findFirstIdx p l = some i) :
    p (l.drop i) = true ∧ ∀ j, j < i → p (l.drop j) = false := by
  induction l generalizing i with
  | nil =>
    simp only [findFirstIdx] at h
    split at h
    · cases h
      exact ⟨by simpa using ‹_›, fun j hj => by omega⟩
    · cases h
  | cons c t ih =>
    simp only [findFirstIdx] at h
    split at h
    · next hp =>
      cases h
      exact ⟨by simpa using hp, fun j hj => by omega⟩
    · next hp =>
      cases hf : findFirstIdx p t with
      | none => rw [hf] at h; simp at h
      | some i' =>
        rw [hf] at h
        simp only [Option.map, Option.some.injEq] at h
        subst h
        obtain ⟨h1, h2⟩ := ih i' hf
        refine ⟨by simpa using h1, ?_⟩
        intro j hj
        cases j with
        | zero =>
          have hfalse : p (c :: t) = false := by
            cases hpc : p (c :: t)
            · rfl
            · exact absurd hpc hp
          simpa using hfalse
        | succ j' =>
          have := h2 j' (by omega)
          simpa using this

theorem closeEndsFrom_mem {l : List Char} {i e : Nat} (h : e ∈ closeEndsFrom l i) :
    ∃ p m, p < l.length ∧ closeAt (l.drop p) = some m ∧ e = i + p + m := by
  induction l generalizing i with
  | nil => simp [closeEndsFrom] at h
  | cons c t ih =>
    rw [show closeEndsFrom (c :: t) i =
        (match closeAt (c :: t) with
         | some m => (i + m) :: closeEndsFrom t (i + 1)
         | none => closeEndsFrom t (i + 1)) from rfl] at h
    cases hca : closeAt (c :: t) with
    | some m =>
      rw [hca] at h
      rcases List.mem_cons.mp h with h1 | h1
      · exact ⟨0, m, by simp, by simpa using hca, by omega⟩
      · obtain ⟨p, m', hp, hc, he⟩ := ih h1
        exact ⟨p + 1, m', by simpa using hp, by simpa using hc, by omega⟩
    | none =>
      rw [hca] at h
      obtain ⟨p, m', hp, hc, he⟩ := ih h
      exact ⟨p + 1, m', by simpa using hp, by simpa using hc, by omega⟩

theorem normalize_some_spec {l r : List Char} (h : normalize_svg_markup l = some r) :
    ∃ s e, findFirstIdx openAt l = some s ∧ lastCloseEnd l = some e ∧
      r = pyStrip ((l.take e).drop s) ∧ r ≠ [] := by
  unfold normalize_svg_markup at h
  split at h
  · cases h
  · split at h
    · next s e hs he =>
      by_cases hsvg : pyStrip ((l.take e).drop s) = []
      · rw [show (let svg := pyStrip ((l.take e).drop s);
            if svg = [] then none else some svg) = (none : Option (List Char)) from by
          simp [hsvg]] at h
        cases h
      · rw [show (let svg := pyStrip ((l.take e).drop s);
            if svg = [] then none else some svg) =
            some (pyStrip ((l.take e).drop s)) from by simp [hsvg]] at h
        refine ⟨s, e, hs, he, ?_, ?_⟩
        · injection h with hh
          exact hh.symm
        · injection h with hh
          rw [← hh]
          exact hsvg
    · next => cases h

/-- `openAt` holds at the very start of `<svg></svg> ++ anything`. -/
theorem openAt_open_cons (t : List Char) :
    openAt ('<' :: 's' :: 'v' :: 'g' :: '>' :: t) = true := rfl

/-- Scanning `<svg></svg> ++ t` records the single close-tag end 11 and then
continues into `t`. -/
theorem closeEndsFrom_open_close (t : List Char) :
    closeEndsFrom ("<svg></svg>".data ++ t) 0 = 11 :: closeEndsFrom t 11 := rfl

/-- No close-tag match begins at an `'x'`. -/
theorem closeEndsFrom_rep_x : ∀ (n i : Nat), closeEndsFrom (List.replicate n 'x') i = [] := by
  intro n
  induction n with
  | zero => intro i; rfl
  | succ n ih =>
    intro i
    rw [List.replicate_succ]
    rw [show closeEndsFrom ('x' :: List.replicate n 'x') i =
        (match closeAt ('x' :: List.replicate n 'x') with
         | some m => (i + m) :: closeEndsFrom (List.replicate n 'x') (i + 1)
         | none => closeEndsFrom (List.replicate n 'x') (i + 1)) from rfl]
    rw [show closeAt ('x' :: List.replicate n 'x') = none from rfl]
    exact ih (i + 1)

/-- Appending non-markup padding after a complete SVG document does not change
its normalization. -/
theorem normalize_svg_markup_pad (n : Nat) :
    normalize_svg_markup ("<svg></svg>".data ++ List.replicate n 'x') =
      some ("<svg></svg>".data) := by
  have hopen : findFirstIdx openAt ("<svg></svg>".data ++ List.replicate n 'x') = some 0 := by
    rw [show ("<svg></svg>".data ++ List.replicate n 'x') =
        '<' :: 's' :: 'v' :: 'g' :: '>' :: ("</svg>".data ++ List.replicate n 'x') from rfl]
    rw [show findFirstIdx openAt
        ('<' :: 's' :: 'v' :: 'g' :: '>' :: ("</svg>".data ++ List.replicate n 'x')) =
        if openAt ('<' :: 's' :: 'v' :: 'g' :: '>' :: ("</svg>".data ++ List.replicate n 'x'))
        then some 0
        else (findFirstIdx openAt ('s' :: 'v' :: 'g' :: '>' ::
          ("</svg>".data ++ List.replicate n 'x'))).map (fun k => k + 1) from rfl]
    rw [if_pos (openAt_open_cons _)]
  have hclose : lastCloseEnd ("<svg></svg>".data ++ List.replicate n 'x') = some 11 := by
    unfold lastCloseEnd
    rw [closeEndsFrom_open_close, closeEndsFrom_rep_x]
    rfl
  have hlooks : looks_like_svg_text ("<svg></svg>".data ++ List.replicate n 'x') = true := by
    rw [looks_like_svg_text, hopen, hclose]
    rfl
  have htake : (("<svg></svg>".data ++ List.replicate n 'x').take 11) = "<svg></svg>".data := by
    rw [show (11 : Nat) = ("<svg></svg>".data).length from rfl]
    exact List.take_left _ _
  rw [normalize_svg_markup, hopen, hclose, hlooks]
  rw [if_neg (by simp)]
  show (let svg := pyStrip ((("<svg></svg>".data ++ List.replicate n 'x').take 11).drop 0);
      if svg = [] then none else some svg) = some ("<svg></svg>".data)
  rw [htake]
  rfl

/-- C5 (amended): `normalize_svg_markup` extracts the substring from the first
case-insensitive `<svg` through the end of the last `</svg>` closing tag,
stripped, returning `none` when the opening tag is absent, the closing tag is
absent, or the stripped result is empty (the maximum-length guard is enforced
by the caller in `ClipboardWatcher`, not by this function); in particular the
preamble/trailing example normalizes to `<svg></svg>` and `hello` is not SVG. -/
theorem c5_normalize_svg_markup :
    normalize_svg_markup ("abc <?xml version=\"1.0\"?>\n<svg></svg>\nxyz".data) =
      some ("<svg></svg>".data) ∧
    normalize_svg_markup ("hello".data) = none ∧
    (∀ l, findFirstIdx openAt l = none → normalize_svg_markup l = none) ∧
    (∀ l, lastCloseEnd l = none → normalize_svg_markup l = none) ∧
    (∀ l r, normalize_svg_markup l = some r →
      ∃ s e, openAt (l.drop s) = true ∧ (∀ j, j < s → openAt (l.drop j) = false) ∧
        (∃ p m, p < l.length ∧ closeAt (l.drop p) = some m ∧ e = p + m) ∧
        lastCloseEnd l = some e ∧ r = pyStrip ((l.take e).drop s) ∧ r ≠ []) := by
  refine ⟨by decide, by decide, ?_, ?_, ?_⟩
  · intro l h
    simp [normalize_svg_markup, looks_like_svg_text, h]
  · intro l h
    simp [normalize_svg_markup, looks_like_svg_text, h]
  · intro l r h
    obtain ⟨s, e, hs, he, hr, hne⟩ := normalize_some_spec h
    obtain ⟨h1, h2⟩ := findFirstIdx_spec _ _ _ hs
    have hx : e ∈ (closeEndsFrom l 0).getLast? := he
    obtain ⟨hnil, heq⟩ := List.mem_getLast?_eq_getLast hx
    have hmem : e ∈ closeEndsFrom l 0 := heq ▸ List.getLast_mem hnil
    obtain ⟨p, m, hp, hc, hpe⟩ := closeEndsFrom_mem hmem
    exact ⟨s, e, h1, h2, ⟨p, m, hp, hc, by omega⟩, he, hr, hne⟩

/-- C5 counterexample: a text longer than the configured maximum
(`AppConfig.max_svg_chars = 200_000_000`) containing a complete SVG document
still normalizes to that document — `normalize_svg_markup` performs no length
check, contradicting the claim's "returns the not-SVG signal ... if ... the
text exceeds the configured maximum length". -/
theorem c5_normalize_counterexample :
    max_svg_chars_default <
      ("<svg></svg>".data ++ List.replicate (max_svg_chars_default + 1) 'x').length ∧
    normalize_svg_markup ("<svg></svg>".data ++ List.replicate (max_svg_chars_default + 1) 'x') =
      some ("<svg></svg>".data) := by
  constructor
  · rw [List.length_append, List.length_replicate,
        show ("<svg></svg>".data).length = 11 from rfl, max_svg_chars_default]
    omega
  · exact normalize_svg_markup_pad _

/-- C5 witness: the none-cases of the theorem discharged at concrete inputs. -/
theorem c5_normalize_svg_markup_witness :
    normalize_svg_markup ("no svg here".data) = none ∧
    normalize_svg_markup ("<svg but never closed".data) = none :=
  ⟨c5_normalize_svg_markup.2.2.1 ("no svg here".data) (by decide),
   c5_normalize_svg_markup.2.2.2.1 ("<svg but never closed".data) (by decide)⟩

theorem one_le_toNat_max_one (x : ℤ) : 1 ≤ (max 1 x).toNat := by
  have h : (1 : ℤ) ≤ max 1 x := le_max_left 1 x
  omega

theorem compute_output_px_shape (l : List Char) (dpi maxDim : ℤ) :
    ∃ a b : ℤ, compute_output_px l dpi maxDim = ((max 1 a).toNat, (max 1 b).toNat) := by
  unfold compute_output_px
  dsimp only
  split
  · exact ⟨_, _, rfl⟩
  · exact ⟨_, _, rfl⟩

/-- C2: `compute_output_px` always returns dimensions of at least 1x1; the
supported absolute units resolve at 96 px/inch while percentage and
font-relative units do not; a missing root tag falls back to the fixed
300x150 default; and the concrete unit-table vectors hold: explicit px
width/height, the viewBox fallback, dpi scaling, and the max-dimension
clamp. -/
theorem c2_compute_output_px :
    (∀ (l : List Char) (dpi maxDim : ℤ), 0 < dpi →
      1 ≤ (compute_output_px l dpi maxDim).1 ∧ 1 ≤ (compute_output_px l dpi maxDim).2) ∧
    compute_output_px ("<svg width=\"200px\" height=\"100px\"></svg>".data) 96 0 = (200, 100) ∧
    compute_output_px ("<svg viewBox=\"0 0 640 480\"></svg>".data) 96 0 = (640, 480) ∧
    compute_output_px ("<svg width=\"100\" height=\"50\"></svg>".data) 192 1000 = (200, 100) ∧
    max (compute_output_px ("<svg width=\"100\" height=\"50\"></svg>".data) 192 120).1
        (compute_output_px ("<svg width=\"100\" height=\"50\"></svg>".data) 192 120).2 = 120 ∧
    lengthToCssPx ("2in".data) = some 192 ∧
    lengthToCssPx ("72pt".data) = some 96 ∧
    lengthToCssPx ("2pc".data) = some 32 ∧
    lengthToCssPx ("25.4mm".data) = some 96 ∧
    lengthToCssPx ("2.54cm".data) = some 96 ∧
    lengthToCssPx ("50%".data) = none ∧
    lengthToCssPx ("2em".data) = none ∧
    (∀ l, svgTagSearch l = none → parse_svg_css_size l = ⟨300, 150⟩) := by
  refine ⟨?_, by decide, by decide, by decide, by decide, by decide, by decide, by decide,
    by decide, by decide, by decide, by decide, ?_⟩
  · intro l dpi maxDim _
    obtain ⟨a, b, heq⟩ := compute_output_px_shape l dpi maxDim
    rw [heq]
    exact ⟨one_le_toNat_max_one a, one_le_toNat_max_one b⟩
  · intro l h
    simp [parse_svg_css_size, h]

/-- C2 witness: the positivity conjunct discharged at a concrete input with a
positive dpi. -/
theorem c2_compute_output_px_witness :
    (0 : ℤ) < 96 ∧
      (1 ≤ (compute_output_px ("not an svg".data) 96 0).1 ∧
       1 ≤ (compute_output_px ("not an svg".data) 96 0).2) :=
  ⟨by decide, c2_compute_output_px.1 ("not an svg".data) 96 0 (by decide)⟩

theorem fitGo_succ (att : Nat → Nat → List Nat)
    (trStep : List Nat → Nat → Nat → List Nat × Nat × Nat) (budget : ℤ) (sqrtA : ℚ → ℚ)
    (fuel w h : Nat) :
    fitGo att trStep budget sqrtA (fuel + 1) w h =
      (let t := trStep (att w h) w h
       if budget ≤ 0 ∨ (t.1.length : ℤ) ≤ budget then ⟨t.1, t.2.1, t.2.2, [(w, h)]⟩
       else
         let scale : ℚ := fitScale sqrtA budget t.1.length
         let nw : Nat := nextDim t.2.1 scale
         let nh : Nat := nextDim t.2.2 scale
         if nw = t.2.1 ∧ nh = t.2.2 then ⟨t.1, t.2.1, t.2.2, [(w, h)]⟩
         else
           match fuel with
           | 0 => ⟨t.1, t.2.1, t.2.2, [(w, h)]⟩
           | fuel' + 1 =>
             let r := fitGo att trStep budget sqrtA (fuel' + 1) nw nh
             ⟨r.png, r.w, r.h, (w, h) :: r.attempts⟩) := by
  cases fuel with
  | zero => rfl
  | succ m => rfl

theorem fitGo_zero (att : Nat → Nat → List Nat)
    (trStep : List Nat → Nat → Nat → List Nat × Nat × Nat) (budget : ℤ) (sqrtA : ℚ → ℚ)
    (w h : Nat) : fitGo att trStep budget sqrtA 0 w h = ⟨[], w, h, []⟩ := rfl

theorem snd_snd_ite {α β γ : Type} {c : Prop} [Decidable c] (e₁ e₂ : α × β × γ) :
    (if c then e₁ else e₂).2.2 = if c then e₁.2.2 else e₂.2.2 := by
  split <;> rfl

theorem nextDim_pos (d : Nat) (s : ℚ) : 1 ≤ nextDim d s :=
  one_le_toNat_max_one _

theorem fitGo_attempts_length_le (att : Nat → Nat → List Nat)
    (trStep : List Nat → Nat → Nat → List Nat × Nat × Nat) (budget : ℤ) (sqrtA : ℚ → ℚ) :
    ∀ fuel w h, (fitGo att trStep budget sqrtA fuel w h).attempts.length ≤ fuel := by
  intro fuel
  induction fuel with
  | zero => intro w h; rw [fitGo_zero]; simp
  | succ n ih =>
    intro w h
    rw [fitGo_succ]
    dsimp only
    split
    · simp
    · split
      · simp
      · cases n with
        | zero => simp
        | succ m =>
          dsimp only
          simp only [List.length_cons]
          exact Nat.succ_le_succ (ih _ _)

theorem fitGo_attempts_pos (att : Nat → Nat → List Nat)
    (trStep : List Nat → Nat → Nat → List Nat × Nat × Nat) (budget : ℤ) (sqrtA : ℚ → ℚ) :
    ∀ fuel w h, 1 ≤ w → 1 ≤ h →
      ∀ p ∈ (fitGo att trStep budget sqrtA fuel w h).attempts, 1 ≤ p.1 ∧ 1 ≤ p.2 := by
  intro fuel
  induction fuel with
  | zero => intro w h _ _ p hp; rw [fitGo_zero] at hp; simp at hp
  | succ n ih =>
    intro w h hw hh p hp
    rw [fitGo_succ] at hp
    dsimp only at hp
    split at hp
    · simp at hp
      subst hp
      exact ⟨hw, hh⟩
    · split at hp
      · simp at hp
        subst hp
        exact ⟨hw, hh⟩
      · cases n with
        | zero =>
          simp at hp
          subst hp
          exact ⟨hw, hh⟩
        | succ m =>
          dsimp only at hp
          simp only [List.mem_cons] at hp
          rcases hp with hp | hp
          · subst hp
            exact ⟨hw, hh⟩
          · exact ih _ _ (nextDim_pos _ _) (nextDim_pos _ _) p hp

/-- C1: the size-fit loop renders at most 6 times and never below 1x1; with a
zero (or negative) byte budget the first attempt is accepted unconditionally;
after an attempt exceeding the budget the next dimensions are
`max(1, round(dim * scale))` with `scale = clamp(0.10, 0.95,
sqrt(budget/current) * 0.90)` and the loop stops early when the new size
equals the previous size; and when the final output still exceeds a positive
budget, `convert` fails with a size-limit error carrying the achieved byte
count and the budget, otherwise it succeeds. -/
theorem c1_size_fit_loop (att : Nat → Nat → List Nat)
    (trStep : List Nat → Nat → Nat → List Nat × Nat × Nat) (budget : ℤ) (sqrtA : ℚ → ℚ)
    (w0 h0 : Nat) :
    (fitGo att trStep budget sqrtA 6 w0 h0).attempts.length ≤ 6 ∧
    (1 ≤ w0 → 1 ≤ h0 →
      ∀ p ∈ (fitGo att trStep budget sqrtA 6 w0 h0).attempts, 1 ≤ p.1 ∧ 1 ≤ p.2) ∧
    (budget ≤ 0 →
      fitGo att trStep budget sqrtA 6 w0 h0 =
        ⟨(trStep (att w0 h0) w0 h0).1, (trStep (att w0 h0) w0 h0).2.1,
         (trStep (att w0 h0) w0 h0).2.2, [(w0, h0)]⟩) ∧
    (∀ fuel w h,
      let t := trStep (att w h) w h
      let nw : Nat := nextDim t.2.1 (fitScale sqrtA budget t.1.length)
      let nh : Nat := nextDim t.2.2 (fitScale sqrtA budget t.1.length)
      0 < budget → budget < (t.1.length : ℤ) →
      ((nw = t.2.1 ∧ nh = t.2.2 →
          fitGo att trStep budget sqrtA (fuel + 1) w h = ⟨t.1, t.2.1, t.2.2, [(w, h)]⟩) ∧
       (¬ (nw = t.2.1 ∧ nh = t.2.2) →
          fitGo att trStep budget sqrtA (fuel + 2) w h =
            ⟨(fitGo att trStep budget sqrtA (fuel + 1) nw nh).png,
             (fitGo att trStep budget sqrtA (fuel + 1) nw nh).w,
             (fitGo att trStep budget sqrtA (fuel + 1) nw nh).h,
             (w, h) :: (fitGo att trStep budget sqrtA (fuel + 1) nw nh).attempts⟩))) ∧
    (∀ (hashFn : List Char → List Char) (render : List Char → Nat → Nat → ℤ → ℚ → List Nat)
       (trimF : List Nat → List Char → ℤ → List Nat × Nat × Nat) (dt : ℚ) (cfg : AppCfg)
       (svg : List Char),
      0 < cfg.max_output_png_bytes →
      let wh := compute_output_px svg cfg.dpi cfg.max_output_dim_px
      let r := fitGo
        (fun w h => render (inject_solid_background svg cfg.background_hex) w h cfg.dpi
          cfg.conversion_timeout_s)
        (fun c w h =>
          if cfg.trim_border then trimF c cfg.background_hex cfg.trim_tolerance else (c, w, h))
        cfg.max_output_png_bytes sqrtA 6 wh.1 wh.2
      ((cfg.max_output_png_bytes < (r.png.length : ℤ) →
        (convert hashFn render trimF sqrtA dt cfg none svg).1 =
          .error (r.png.length, cfg.max_output_png_bytes)) ∧
       ((r.png.length : ℤ) ≤ cfg.max_output_png_bytes →
        (convert hashFn render trimF sqrtA dt cfg none svg).1 =
          .ok ⟨hashFn svg, r.png, dt, r.w, r.h⟩))) ∧
    (∀ (hashFn : List Char → List Char) (render : List Char → Nat → Nat → ℤ → ℚ → List Nat)
       (trimF : List Nat → List Char → ℤ → List Nat × Nat × Nat) (dt : ℚ) (cfg : AppCfg)
       (cache : Option ConvCache) (svg : List Char),
      ((convert hashFn render trimF sqrtA dt cfg cache svg).2.2).length ≤ 6) ∧
    (∀ (hashFn : List Char → List Char) (render : List Char → Nat → Nat → ℤ → ℚ → List Nat)
       (trimF : List Nat → List Char → ℤ → List Nat × Nat × Nat) (dt : ℚ) (cfg : AppCfg)
       (cache : Option ConvCache) (svg : List Char),
      ∀ p ∈ (convert hashFn render trimF sqrtA dt cfg cache svg).2.2,
        1 ≤ p.1 ∧ 1 ≤ p.2) := by
  refine ⟨fitGo_attempts_length_le att trStep budget sqrtA 6 w0 h0,
    fitGo_attempts_pos att trStep budget sqrtA 6 w0 h0, ?_, ?_, ?_, ?_, ?_⟩
  · intro hb
    rw [fitGo_succ]
    dsimp only
    rw [if_pos (Or.inl hb)]
  · intro fuel w h
    dsimp only
    intro hb hlen
    constructor
    · intro hsame
      rw [fitGo_succ]
      dsimp only
      rw [if_neg (by simp only [not_or]; constructor <;> omega), if_pos hsame]
    · intro hne
      rw [fitGo_succ]
      dsimp only
      rw [if_neg (by simp only [not_or]; constructor <;> omega), if_neg hne]
  · intro hashFn render trimF dt cfg svg hb
    dsimp only
    constructor
    · intro hbig
      simp only [convert]
      rw [if_pos ⟨hb, hbig⟩]
    · intro hfit
      simp only [convert]
      rw [if_neg (by intro hcon; omega)]
  · intro hashFn render trimF dt cfg cache svg
    simp only [convert]
    cases cache with
    | none =>
      dsimp only
      rw [snd_snd_ite]
      dsimp only
      rw [ite_self]
      exact fitGo_attempts_length_le _ _ _ _ 6 _ _
    | some c =>
      dsimp only
      cases hget : (lruGet c (cacheKeyOf hashFn cfg svg
          (compute_output_px svg cfg.dpi cfg.max_output_dim_px).1
          (compute_output_px svg cfg.dpi cfg.max_output_dim_px).2)).1 with
      | some hit => simp
      | none =>
        dsimp only
        rw [snd_snd_ite]
        dsimp only
        rw [ite_self]
        exact fitGo_attempts_length_le _ _ _ _ 6 _ _
  · intro hashFn render trimF dt cfg cache svg
    simp only [convert]
    cases cache with
    | none =>
      dsimp only
      intro p hp
      rw [snd_snd_ite] at hp
      dsimp only at hp
      rw [ite_self] at hp
      obtain ⟨a, b, heq⟩ := compute_output_px_shape svg cfg.dpi cfg.max_output_dim_px
      refine fitGo_attempts_pos _ _ _ _ 6 _ _ ?_ ?_ p hp
      · rw [heq]
        exact one_le_toNat_max_one a
      · rw [heq]
        exact one_le_toNat_max_one b
    | some cc =>
      dsimp only
      rcases hget : (lruGet cc (cacheKeyOf hashFn cfg svg
          (compute_output_px svg cfg.dpi cfg.max_output_dim_px).1
          (compute_output_px svg cfg.dpi cfg.max_output_dim_px).2)).1 with _ | hit
      · dsimp only
        intro p hp
        rw [snd_snd_ite] at hp
        dsimp only at hp
        rw [ite_self] at hp
        obtain ⟨a, b, heq⟩ := compute_output_px_shape svg cfg.dpi cfg.max_output_dim_px
        refine fitGo_attempts_pos _ _ _ _ 6 _ _ ?_ ?_ p hp
        · rw [heq]
          exact one_le_toNat_max_one a
        · rw [heq]
          exact one_le_toNat_max_one b
      · intro p hp
        simp at hp

/-- A renderer stub producing a constant 3-byte output. -/
def att0 : Nat → Nat → List Nat := fun _ _ => [0, 0, 0]

/-- A pass-through trim step. -/
def tr0 : List Nat → Nat → Nat → List Nat × Nat × Nat := fun c w h => (c, w, h)

/-- C1 witness: the loop theorem instantiated at a concrete renderer — with a
zero budget the first attempt is accepted, and with a positive budget the
attempt count stays within 6. -/
theorem c1_size_fit_loop_witness :
    fitGo att0 tr0 0 (fun q => q) 6 4 4 = ⟨[0, 0, 0], 4, 4, [(4, 4)]⟩ ∧
    (fitGo att0 tr0 2 (fun q => q) 6 4 4).attempts.length ≤ 6 := by
  constructor
  · have h := (c1_size_fit_loop att0 tr0 0 (fun q => q) 4 4).2.2.1 (by decide)
    simpa [att0, tr0] using h
  · exact (c1_size_fit_loop att0 tr0 2 (fun q => q) 4 4).1

/-- C8: when the composite cache key is present, `convert` returns immediately
with the stored PNG bytes and dimensions, a render duration of exactly 0, no
renderer invocation (empty attempt list), and the cache updated only by the
hit's recency promotion. -/
theorem c8_cache_hit_short_circuit (hashFn : List Char → List Char)
    (render : List Char → Nat → Nat → ℤ → ℚ → List Nat)
    (trimF : List Nat → List Char → ℤ → List Nat × Nat × Nat) (sqrtA : ℚ → ℚ) (dt : ℚ)
    (cfg : AppCfg) (c : ConvCache) (svg : List Char) (png : List Nat) (w h : Nat)
    (hget : (lruGet c (cacheKeyOf hashFn cfg svg
        (compute_output_px svg cfg.dpi cfg.max_output_dim_px).1
        (compute_output_px svg cfg.dpi cfg.max_output_dim_px).2)).1 = some (png, w, h)) :
    convert hashFn render trimF sqrtA dt cfg (some c) svg =
      (.ok ⟨hashFn svg, png, 0, w, h⟩,
       some (lruGet c (cacheKeyOf hashFn cfg svg
          (compute_output_px svg cfg.dpi cfg.max_output_dim_px).1
          (compute_output_px svg cfg.dpi cfg.max_output_dim_px).2)).2, []) := by
  simp only [convert]
  rw [hget]

/-- Configuration snapshot used by the concrete conversion scenarios. -/
def cfgW : AppCfg := ⟨96, "#FFFFFF".data, 30, 0, 0, false, 8⟩

/-- A one-entry cache holding the key `convert` computes for `<svg/>`. -/
def cacheW : ConvCache :=
  ⟨4, [(cacheKeyOf (fun l => l) cfgW ("<svg/>".data) 300 150, ([9], 7, 8))]⟩

/-- C8 witness: the cache-hit theorem discharged at a concrete one-entry
cache. -/
theorem c8_cache_hit_short_circuit_witness :
    (convert (fun l => l) (fun _ _ _ _ _ => [1]) (fun c _ _ => (c, 2, 2)) (fun q => q) 7 cfgW
        (some cacheW) ("<svg/>".data)).1 = .ok ⟨"<svg/>".data, [9], 0, 7, 8⟩ ∧
    (convert (fun l => l) (fun _ _ _ _ _ => [1]) (fun c _ _ => (c, 2, 2)) (fun q => q) 7 cfgW
        (some cacheW) ("<svg/>".data)).2.2 = [] := by
  have h := c8_cache_hit_short_circuit (fun l => l) (fun _ _ _ _ _ => [1])
    (fun c _ _ => (c, 2, 2)) (fun q => q) 7 cfgW cacheW ("<svg/>".data) [9] 7 8 (by decide)
  exact ⟨by rw [h], by rw [h]⟩

/-- C3 (amended): the `ConversionResult` dimensions are the target dimensions
tracked by the size-fit loop — with trimming disabled and no byte budget they
equal the requested `compute_output_px` target, while the PNG bytes are
whatever the rasterizer produced; the dimensions are never read back from the
produced bytes, so they coincide with the IHDR dimensions only when the
rasterizer honours the requested size. -/
theorem c3_dimensions_are_requested_target (hashFn : List Char → List Char)
    (render : List Char → Nat → Nat → ℤ → ℚ → List Nat)
    (trimF : List Nat → List Char → ℤ → List Nat × Nat × Nat) (sqrtA : ℚ → ℚ) (dt : ℚ)
    (cfg : AppCfg) (svg : List Char) (r : ConvResult)
    (hb : cfg.max_output_png_bytes ≤ 0) (ht : cfg.trim_border = false)
    (hok : (convert hashFn render trimF sqrtA dt cfg none svg).1 = .ok r) :
    r.width_px = (compute_output_px svg cfg.dpi cfg.max_output_dim_px).1 ∧
    r.height_px = (compute_output_px svg cfg.dpi cfg.max_output_dim_px).2 ∧
    r.png_bytes = render (inject_solid_background svg cfg.background_hex)
        (compute_output_px svg cfg.dpi cfg.max_output_dim_px).1
        (compute_output_px svg cfg.dpi cfg.max_output_dim_px).2
        cfg.dpi cfg.conversion_timeout_s := by
  have hfit : fitGo
      (fun w h => render (inject_solid_background svg cfg.background_hex) w h cfg.dpi
        cfg.conversion_timeout_s)
      (fun c w h =>
        if cfg.trim_border then trimF c cfg.background_hex cfg.trim_tolerance else (c, w, h))
      cfg.max_output_png_bytes sqrtA 6
      (compute_output_px svg cfg.dpi cfg.max_output_dim_px).1
      (compute_output_px svg cfg.dpi cfg.max_output_dim_px).2 =
      ⟨render (inject_solid_background svg cfg.background_hex)
          (compute_output_px svg cfg.dpi cfg.max_output_dim_px).1
          (compute_output_px svg cfg.dpi cfg.max_output_dim_px).2
          cfg.dpi cfg.conversion_timeout_s,
       (compute_output_px svg cfg.dpi cfg.max_output_dim_px).1,
       (compute_output_px svg cfg.dpi cfg.max_output_dim_px).2,
       [((compute_output_px svg cfg.dpi cfg.max_output_dim_px).1,
         (compute_output_px svg cfg.dpi cfg.max_output_dim_px).2)]⟩ := by
    rw [show (6 : Nat) = 5 + 1 from rfl, fitGo_succ]
    dsimp only
    rw [if_pos (Or.inl hb)]
    simp [ht]
  simp only [convert] at hok
  rw [if_neg (by intro hcon; omega)] at hok
  rw [hfit] at hok
  dsimp only at hok
  injection hok with hr
  rw [← hr]
  exact ⟨rfl, rfl, rfl⟩

/-- The constant PNG payload whose IHDR declares 20x20. -/
def png20 : List Nat :=
  [137, 80, 78, 71, 13, 10, 26, 10, 0, 0, 0, 13, 73, 72, 68, 82, 0, 0, 0, 20, 0, 0, 0, 20]

/-- C3 counterexample: rendering a 10x10-target SVG through a rasterizer that
(as under the zoom-factor fallback) ignores the requested size and produces a
20x20 PNG yields a result reporting 10x10 while its bytes' IHDR says 20x20 —
the claimed invariant "dimensions equal the IHDR dimensions of the produced
bytes" fails. -/
theorem c3_dimensions_counterexample :
    ((convert (fun l => l) (fun _ _ _ _ _ => png20) (fun c _ _ => (c, 5, 5)) (fun q => q) 1 cfgW
        none ("<svg width=\"10\" height=\"10\"></svg>".data)).1.toOption.map
        (fun r => (r.width_px, r.height_px))) = some (10, 10) ∧
    ((convert (fun l => l) (fun _ _ _ _ _ => png20) (fun c _ _ => (c, 5, 5)) (fun q => q) 1 cfgW
        none ("<svg width=\"10\" height=\"10\"></svg>".data)).1.toOption.map
        (fun r => parse_png_dimensions r.png_bytes)) = some (20, 20) := by
  constructor
  · decide
  · decide

/-- C3 witness: the amended theorem discharged at the concrete zoom-fallback
scenario. -/
theorem c3_dimensions_are_requested_target_witness :
    (⟨"<svg width=\"10\" height=\"10\"></svg>".data, png20, 1, 10, 10⟩ : ConvResult).width_px =
      (compute_output_px ("<svg width=\"10\" height=\"10\"></svg>".data) cfgW.dpi
        cfgW.max_output_dim_px).1 ∧
    (⟨"<svg width=\"10\" height=\"10\"></svg>".data, png20, 1, 10, 10⟩ : ConvResult).height_px =
      (compute_output_px ("<svg width=\"10\" height=\"10\"></svg>".data) cfgW.dpi
        cfgW.max_output_dim_px).2 ∧
    (⟨"<svg width=\"10\" height=\"10\"></svg>".data, png20, 1, 10, 10⟩ : ConvResult).png_bytes =
      (fun (_ : List Char) (_ _ : Nat) (_ : ℤ) (_ : ℚ) => png20)
        (inject_solid_background ("<svg width=\"10\" height=\"10\"></svg>".data)
          cfgW.background_hex)
        (compute_output_px ("<svg width=\"10\" height=\"10\"></svg>".data) cfgW.dpi
          cfgW.max_output_dim_px).1
        (compute_output_px ("<svg width=\"10\" height=\"10\"></svg>".data) cfgW.dpi
          cfgW.max_output_dim_px).2
        cfgW.dpi cfgW.conversion_timeout_s :=
  c3_dimensions_are_requested_target (fun l => l)
    (fun _ _ _ _ _ => png20) (fun c _ _ => (c, 5, 5)) (fun q => q) 1 cfgW
    ("<svg width=\"10\" height=\"10\"></svg>".data)
    ⟨"<svg width=\"10\" height=\"10\"></svg>".data, png20, 1, 10, 10⟩
    (by decide) (by decide) (by rfl)

theorem fst_ite {α β : Type} {c : Prop} [Decidable c] (e₁ e₂ : α × β) :
    (if c then e₁ else e₂).1 = if c then e₁.1 else e₂.1 := by
  split <;> rfl

/-- C4: a successful worker completion records the result hash as the last
processed hash; a conversion of `s` yields exactly `hashFn s` as that hash;
and a debounce expiry whose re-read, re-normalized clipboard content hashes
equal to the last processed hash dispatches nothing — so the same SVG text
processed twice unchanged never dispatches a second render. -/
theorem c4_duplicate_hash_suppression :
    (∀ (resHash : List Char) (st : WatcherState),
      (onWorkerFinished resHash st).lastProcessedHash = some resHash) ∧
    (∀ (hashFn : List Char → List Char) (render : List Char → Nat → Nat → ℤ → ℚ → List Nat)
       (trimF : List Nat → List Char → ℤ → List Nat × Nat × Nat) (sqrtA : ℚ → ℚ) (dt : ℚ)
       (cfg : AppCfg) (cache : Option ConvCache) (svg : List Char) (r : ConvResult),
      (convert hashFn render trimF sqrtA dt cfg cache svg).1 = .ok r →
      r.svg_hash = hashFn svg) ∧
    (∀ (hashFn : List Char → List Char) (st : WatcherState) (m : MimeData) (c s : List Char),
      st.lastProcessedHash = some (hashFn s) →
      normalize_svg_markup m.text = some c →
      hashFn c = hashFn s →
      (onDebounceTimeout hashFn (some m) st).2 = none) := by
  refine ⟨?_, ?_, ?_⟩
  · intro resHash st
    simp only [onWorkerFinished, maybeRerunLatest]
    split <;> try rfl
    split <;> rfl
  · intro hashFn render trimF sqrtA dt cfg cache svg r hok
    simp only [convert] at hok
    cases cache with
    | none =>
      dsimp only at hok
      by_cases hc : 0 < cfg.max_output_png_bytes ∧
          cfg.max_output_png_bytes < ((fitGo
            (fun w h => render (inject_solid_background svg cfg.background_hex) w h cfg.dpi
              cfg.conversion_timeout_s)
            (fun c w h =>
              if cfg.trim_border then trimF c cfg.background_hex cfg.trim_tolerance
              else (c, w, h))
            cfg.max_output_png_bytes sqrtA 6
            (compute_output_px svg cfg.dpi cfg.max_output_dim_px).1
            (compute_output_px svg cfg.dpi cfg.max_output_dim_px).2).png.length : ℤ)
      · rw [if_pos hc] at hok
        simp at hok
      · rw [if_neg hc] at hok
        injection hok with h
        rw [← h]
    | some cc =>
      dsimp only at hok
      rcases hget : (lruGet cc (cacheKeyOf hashFn cfg svg
          (compute_output_px svg cfg.dpi cfg.max_output_dim_px).1
          (compute_output_px svg cfg.dpi cfg.max_output_dim_px).2)).1 with _ | hit
      · rw [hget] at hok
        dsimp only at hok
        by_cases hc : 0 < cfg.max_output_png_bytes ∧
            cfg.max_output_png_bytes < ((fitGo
              (fun w h => render (inject_solid_background svg cfg.background_hex) w h cfg.dpi
                cfg.conversion_timeout_s)
              (fun c w h =>
                if cfg.trim_border then trimF c cfg.background_hex cfg.trim_tolerance
                else (c, w, h))
              cfg.max_output_png_bytes sqrtA 6
              (compute_output_px svg cfg.dpi cfg.max_output_dim_px).1
              (compute_output_px svg cfg.dpi cfg.max_output_dim_px).2).png.length : ℤ)
        · rw [if_pos hc] at hok
          simp at hok
        · rw [if_neg hc] at hok
          injection hok with h
          rw [← h]
      · rw [hget] at hok
        dsimp only at hok
        injection hok with h
        rw [← h]
  · intro hashFn st m c s hlast hnorm hcc
    simp only [onDebounceTimeout]
    rw [hnorm, hlast]
    split
    · rfl
    · split
      · rfl
      · split
        · rfl
        · split
          · rfl
          · dsimp only
            split
            · rfl
            · rw [if_pos (show some (hashFn c) = some (hashFn s) by rw [hcc])]

/-- A listening watcher state that has already processed `<svg></svg>`. -/
def stW : WatcherState :=
  ⟨true, some ("<svg></svg>".data), some ("<svg></svg>".data), 0, false, false, false, true⟩

/-- The clipboard payload carrying `<svg></svg>` as text. -/
def mimeW : MimeData := ⟨false, true, "<svg></svg>".data⟩

/-- C4 witness: the suppression conjunct discharged at a concrete state whose
last processed hash matches the re-read clipboard content. -/
theorem c4_duplicate_hash_suppression_witness :
    (onDebounceTimeout (fun l => l) (some mimeW) stW).2 = none :=
  c4_duplicate_hash_suppression.2.2 (fun l => l) stW mimeW
    ("<svg></svg>".data) ("<svg></svg>".data) (by decide) (by decide) (by decide)

/-- C10: `stop()` clears the pending SVG, the debounce timer and the in-flight
flag but leaves the last processed hash intact; hence after `stop()` then
`start()`, a clipboard change carrying the previously converted text followed
by a debounce expiry stores the text as pending yet dispatches no conversion
(duplicate suppression survives a stop/start cycle). -/
theorem c10_stop_keeps_duplicate_suppression (st : WatcherState) (hrun : st.running = true) :
    (watcherStop st).pendingSvg = none ∧
    (watcherStop st).debounceArmed = false ∧
    (watcherStop st).inFlight = false ∧
    (watcherStop st).running = false ∧
    (watcherStop st).lastProcessedHash = st.lastProcessedHash ∧
    (∀ (hashFn : List Char → List Char) (cfg : WatchCfg) (now : ℚ) (m : MimeData)
       (c s : List Char),
      st.lastProcessedHash = some (hashFn s) →
      m.hasImage = false → m.hasText = true → m.text ≠ [] →
      (m.text.length : ℤ) ≤ cfg.max_svg_chars →
      st.ignoreUntil ≤ now →
      normalize_svg_markup m.text = some c → hashFn c = hashFn s →
      (onClipboardChanged cfg now (some m) (watcherStart (watcherStop st))).pendingSvg =
        some c ∧
      (onDebounceTimeout hashFn (some m)
        (onClipboardChanged cfg now (some m) (watcherStart (watcherStop st)))).2 = none) := by
  have h1 : watcherStop st =
      { st with running := false, pendingSvg := none, debounceArmed := false,
                inFlight := false } := by
    unfold watcherStop
    rw [if_neg (by simp [hrun])]
  refine ⟨by rw [h1], by rw [h1], by rw [h1], by rw [h1], by rw [h1], ?_⟩
  intro hashFn cfg now m c s hlast himg htext hne hlen hnow hnorm hcc
  have h2 : watcherStart (watcherStop st) =
      { st with running := true, pendingSvg := none, debounceArmed := false,
                inFlight := false } := by
    rw [h1]
    unfold watcherStart
    rw [if_neg (by simp)]
  have h3 : onClipboardChanged cfg now (some m) (watcherStart (watcherStop st)) =
      { st with running := true, pendingSvg := some c, debounceArmed := true,
                inFlight := false } := by
    rw [h2]
    unfold onClipboardChanged
    rw [if_neg (by simp), if_neg (by simp; exact hnow)]
    dsimp only
    rw [if_neg (by simp [himg]), if_neg (by simp [htext]), if_neg (by simpa using hne),
      if_neg (by omega), hnorm]
  refine ⟨by rw [h3], ?_⟩
  rw [h3]
  simp [onDebounceTimeout, hnorm, hlast, hcc, htext]

/-- C10 witness: the stop/start suppression discharged at a concrete listening
state. -/
theorem c10_stop_keeps_duplicate_suppression_witness :
    (watcherStop stW).lastProcessedHash = stW.lastProcessedHash ∧
    (onDebounceTimeout (fun l => l) (some mimeW)
      (onClipboardChanged ⟨200, 1000⟩ 1 (some mimeW) (watcherStart (watcherStop stW)))).2 =
      none := by
  have h := c10_stop_keeps_duplicate_suppression stW (by decide)
  exact ⟨h.2.2.2.2.1,
    (h.2.2.2.2.2 (fun l => l) ⟨200, 1000⟩ 1 mimeW ("<svg></svg>".data) ("<svg></svg>".data)
      (by decide) (by decide) (by decide) (by decide) (by decide) (by decide) (by decide)
      (by decide)).2⟩

/-- C7: whenever the estimated uncompressed footprint `w * h * 4` fits the
configured ceiling and the PIL decode yields the top-down BGRA buffer, the
clipboard writer emits a DIBv5 payload whose header fields are exactly those
set by the code — size 124 (`sizeof(BITMAPV5HEADER)`), width `w`, height `-h`
(top-down), 1 plane, 32 bits per pixel, `BI_BITFIELDS` compression, the
BGRA channel masks, the sRGB colour-space tag, and pixels-per-meter
`round(dpi / 0.0254)` on both axes — followed immediately by the pixel
buffer. -/
theorem c7_dibv5_payload (px : List Nat) (w h : Nat) (dpi maxBytes : ℤ)
    (hwh : 0 < w * h) (hlen : px.length = w * h * 4)
    (hmax : ((w * h * 4 : Nat) : ℤ) ≤ maxBytes) :
    buildDibv5Payload (some px) w h dpi true maxBytes =
      some (serializeDibv5Header (mkDibv5Header w h dpi px.length) ++ px) ∧
    (mkDibv5Header w h dpi px.length).size = 124 ∧
    (serializeDibv5Header (mkDibv5Header w h dpi px.length)).length = 124 ∧
    (mkDibv5Header w h dpi px.length).width = (w : ℤ) ∧
    (mkDibv5Header w h dpi px.length).height = -(h : ℤ) ∧
    (mkDibv5Header w h dpi px.length).planes = 1 ∧
    (mkDibv5Header w h dpi px.length).bitCount = 32 ∧
    (mkDibv5Header w h dpi px.length).compression = 3 ∧
    (mkDibv5Header w h dpi px.length).sizeImage = px.length ∧
    (mkDibv5Header w h dpi px.length).redMask = 0x00FF0000 ∧
    (mkDibv5Header w h dpi px.length).greenMask = 0x0000FF00 ∧
    (mkDibv5Header w h dpi px.length).blueMask = 0x000000FF ∧
    (mkDibv5Header w h dpi px.length).alphaMask = 0xFF000000 ∧
    (mkDibv5Header w h dpi px.length).csType = 0x73524742 ∧
    (mkDibv5Header w h dpi px.length).xPelsPerMeter = dpi_to_pels_per_meter dpi ∧
    (mkDibv5Header w h dpi px.length).yPelsPerMeter = dpi_to_pels_per_meter dpi ∧
    dpi_to_pels_per_meter 96 = 3780 := by
  have hne : px ≠ [] := by
    intro hnil
    rw [hnil] at hlen
    simp only [List.length_nil] at hlen
    omega
  refine ⟨?_, rfl, ?_, rfl, rfl, rfl, rfl, rfl, rfl, rfl, rfl, rfl, rfl, rfl, rfl, rfl,
    by decide⟩
  · unfold buildDibv5Payload
    rw [if_neg (by simp), if_pos hmax]
    dsimp only [Option.getD]
    rw [if_pos ⟨hne, by rw [hlen]; exact hmax⟩]
  · simp [serializeDibv5Header, le32, le32i, le16]

/-- C7 witness: the DIBv5 theorem discharged for a 1x1 BGRA pixel at 96 dpi
under the 64 MiB ceiling. -/
theorem c7_dibv5_payload_witness :
    buildDibv5Payload (some [0, 0, 0, 255]) 1 1 96 true 67108864 =
      some (serializeDibv5Header (mkDibv5Header 1 1 96 (
        [0, 0, 0, 255] : List Nat).length) ++ [0, 0, 0, 255]) ∧
    (serializeDibv5Header (mkDibv5Header 1 1 96 ([0, 0, 0, 255] : List Nat).length)).length =
      124 := by
  have hh := c7_dibv5_payload [0, 0, 0, 255] 1 1 96 67108864 (by decide) (by decide) (by decide)
  exact ⟨hh.1, hh.2.2.1⟩

end EvalTheorems

end SvgToPng
